import Mathlib

/-!
# Verification of the ASCII wireframe rendering engine

Shallow embedding of the TypeScript wireframe-to-glyph renderer: the
`AsciiSquare` (ascii-square), `AsciiCube` (ascii-cube) and
`AsciiTessarect` (ascii-tessarect) components, the early point-cloud
square variant (the first `ascii-tesseract` class), and the
Bresenham-based `AsciiTesseract` variant (src/ascii-tesseract.ts).

Modelling conventions:
* JavaScript `number` arithmetic is modelled over `ℚ`; `Math.floor` is
  `Int.floor` and `Math.round` is `⌊x + 1/2⌋` (JavaScript rounds halves
  toward positive infinity).
* Quantities that are integers in every reachable state (vertex
  coordinates, projected screen coordinates, loop counters) are typed
  `ℤ`; every call site of `drawLine` passes `Math.round`ed integers.
* `Math.cos`/`Math.sin` of an angle enter each rotation routine only
  through their values, so the rotation routines take the cosine and
  sine as explicit `ℚ` parameters.
* The inline `Math.random()` calls of `chooseASCII` are modelled as an
  explicitly injected stream `ℕ → ℚ` of values in `[0,1)`, consumed in
  write order, so the influence of the randomness can be stated exactly.
* Component fields (`this.basePoints`, `this.points`, `this.screenArray`)
  are modelled as explicit state records with one step function per
  reactive update.
-/

namespace AsciiRender

/-- JavaScript `Math.round`: round half toward positive infinity. -/
def jsRound (q : ℚ) : ℤ := ⌊q + 1/2⌋

/-- One rasterizer sample `[x, y, brightness]` as pushed by `drawLine`. -/
abbrev Sample := ℤ × ℤ × ℚ

/-! ## The antialiased rasterizer (`drawLine`)

The method is textually identical in `AsciiSquare`, `AsciiCube` and
`AsciiTessarect`, so it is embedded once. -/

/-- The loop of `drawLine` (`for (let x = x0; x <= x1; x++) { … }`):
`n` remaining iterations, current dominant coordinate `x`, current exact
secondary position `exactY`.  Each iteration takes `y = Math.floor(exactY)`
and `diff = exactY - y`, pushes the floor cell with brightness `1 - diff`
and the cell one further along the secondary axis with brightness `diff`
(swapping the two coordinates back when `steep`), then advances
`exactY += grad`. -/
def lineSamples (steep : Bool) (grad : ℚ) : ℕ → ℤ → ℚ → List Sample
  | 0, _, _ => []
  | n + 1, x, exactY =>
    let y : ℤ := ⌊exactY⌋
    let diff : ℚ := exactY - y
    (if steep then (y, x, 1 - diff) else (x, y, 1 - diff)) ::
    (if steep then (y + 1, x, diff) else (x, y + 1, diff)) ::
    lineSamples steep grad n (x + 1) (exactY + grad)

/-- The tail of `drawLine` after the transpose and the endpoint swap:
`u` is the dominant axis, `v` the secondary axis, `grad = dy / dx`.
In the source `dx = 0` makes `grad = 0/0 = NaN`, which happens only when
the two endpoints coincide; that single loop iteration never reads
`grad`, so modelling the division by zero as `ℚ`'s `0` is faithful. -/
def lineGo (steep : Bool) (u0 v0 u1 v1 : ℤ) : List Sample :=
  lineSamples steep ((v1 - v0 : ℚ) / ((u1 - u0 : ℚ))) (u1 - u0 + 1).toNat u0 (v0 : ℚ)

/-- `drawLine(x0, y0, x1, y1)`: Wu-style antialiased rasterization.  The
source transposes the two coordinates of both endpoints when
`Math.abs(y1 - y0) > Math.abs(x1 - x0)` and then swaps the endpoints
when `x0 > x1`; the two destructuring swaps are realized as `if`
branches feeding `lineGo`. -/
def drawLine (x0 y0 x1 y1 : ℤ) : List Sample :=
  if |y1 - y0| > |x1 - x0| then
    if y0 > y1 then lineGo true y1 x1 y0 x0 else lineGo true y0 x0 y1 x1
  else
    if x0 > x1 then lineGo false x1 y1 x0 y0 else lineGo false x0 y0 x1 y1

/-! ## The glyph mapper (`DENSITY` / `chooseASCII`)

Identical in `AsciiSquare`, `AsciiCube` and `AsciiTessarect`. -/

/-- The `DENSITY` palette: ten brightness bands of seven glyphs each
(the two braces of the fourth band are written with `\x7b`/`\x7d`
escapes). -/
def DENSITY : List String :=
  [" .'`^\",", ":;Il!i>", "<~+_-?]", "[\x7d\x7b1)(|", "\\/tfjrx",
   "nuvczXY", "UJCLQ0O", "Zmwqpdb", "khao*#M", "W&8%B@$"]

/-- `Math.floor(brightness * (this.DENSITY.length - 1))` — the band
index computed by `chooseASCII`; the source applies no clamping. -/
def bandIdx (brightness : ℚ) : ℤ := ⌊brightness * ((DENSITY.length : ℚ) - 1)⌋

/-- `chooseASCII(brightness)` with the `Math.random()` value `r` made an
explicit argument: select the band `DENSITY[bandIdx brightness]`, then
the glyph at `Math.floor(r * ASCIIs.length)` inside it. -/
def chooseASCII (r brightness : ℚ) : Char :=
  let ASCIIs := (DENSITY.getD (bandIdx brightness).toNat "").toList
  ASCIIs.getD (⌊r * (ASCIIs.length : ℚ)⌋).toNat ' '

/-! ## The frame buffer -/

/-- A frame: a list of rows of characters. -/
abbrev Grid := List (List Char)

/-- `createNewScreen()` of `AsciiSquare`: a 41×41 grid of blanks
(`CANVAS_SIZE = 41`). -/
def createNewScreen : Grid := List.replicate 41 (List.replicate 41 ' ')

/-- `newScreen[y][x] = ch`. -/
def setCell (g : Grid) (y x : ℕ) (ch : Char) : Grid :=
  g.set y ((g.getD y []).set x ch)

/-- Read back a cell (blank when out of range). -/
def cellAt (g : Grid) (y x : ℕ) : Char := (g.getD y []).getD x ' '

/-! ## `AsciiSquare` (the antialiased square renderer)

Constants: `SIZE = 21`, `HALFSIZE = 10`, `CANVAS_SIZE = 41`,
`HALFCANVAS = 20`. -/

/-- `basePoints` of `AsciiSquare`: the four corners at `±HALFSIZE`. -/
def basePointsSq : List (ℤ × ℤ) := [(-10, -10), (10, -10), (10, 10), (-10, 10)]

/-- `calculateRotation()` of `AsciiSquare`, parametrized by the values
`cosA`, `sinA` of `Math.cos`/`Math.sin` of the angle: rotate each point
and `Math.round` both coordinates, producing a fresh array. -/
def calcRotationSq (cosA sinA : ℚ) (pts : List (ℤ × ℤ)) : List (ℤ × ℤ) :=
  pts.map fun p =>
    (jsRound ((p.1 : ℚ) * cosA - (p.2 : ℚ) * sinA),
     jsRound ((p.1 : ℚ) * sinA + (p.2 : ℚ) * cosA))

/-- The `edges` array of `AsciiSquare.drawFrame`: for every vertex, the
antialiased line to the cyclically next vertex, followed by one
full-brightness sample per vertex. -/
def edgeSamplesSq (pts : List (ℤ × ℤ)) : List Sample :=
  ((List.range pts.length).flatMap fun i =>
    let p := pts.getD i (0, 0)
    let q := pts.getD ((i + 1) % pts.length) (0, 0)
    drawLine p.1 p.2 q.1 q.2) ++
  (pts.map fun p => (p.1, p.2, (1 : ℚ)))

/-- The center shift `[x + HALFCANVAS, y + HALFCANVAS, brightness]`. -/
def shiftSample (s : Sample) : Sample := (s.1 + 20, s.2.1 + 20, s.2.2)

/-- The bounds filter `x >= 0 && x < CANVAS_SIZE && y >= 0 && y < CANVAS_SIZE`. -/
def inBounds (s : Sample) : Bool :=
  decide (0 ≤ s.1) && decide (s.1 < 41) && decide (0 ≤ s.2.1) && decide (s.2.1 < 41)

/-- Center-shift then clip: the samples that survive `drawFrame`'s
`map`/`filter` stage and are actually written. -/
def clipSamples (samples : List Sample) : List Sample :=
  (samples.map shiftSample).filter inBounds

/-- The `forEach` write loop: write each retained sample into the grid at
`newScreen[y][x]`, choosing the glyph with the `k`-th random value for
the `k`-th write (last write wins). -/
def writeSamples (r : ℕ → ℚ) (kept : List Sample) (g : Grid) : Grid :=
  kept.enum.foldl
    (fun g ks => setCell g ks.2.2.1.toNat ks.2.1.toNat (chooseASCII (r ks.1) ks.2.2.2)) g

/-- `AsciiSquare.drawFrame()` as a function of the base points: rotate,
rasterize the closed outline plus the vertex dots, shift, clip, and
write into a fresh blank screen. -/
def drawFrameSq (cosA sinA : ℚ) (r : ℕ → ℚ) (base : List (ℤ × ℤ)) : Grid :=
  writeSamples r (clipSamples (edgeSamplesSq (calcRotationSq cosA sinA base))) createNewScreen

/-- The mutable fields of the `AsciiSquare` component: the (readonly)
`basePoints` and the per-frame `screenArray`. -/
structure SquareState where
  basePoints : List (ℤ × ℤ)
  screenArray : Grid

/-- One reactive update of `AsciiSquare` (`willUpdate` → `drawFrame`):
the screen is rebuilt from `this.basePoints`; nothing assigns to
`this.basePoints` (it is declared `readonly`). -/
def squareStep (cosA sinA : ℚ) (r : ℕ → ℚ) (st : SquareState) : SquareState :=
  { basePoints := st.basePoints
    screenArray := drawFrameSq cosA sinA r st.basePoints }

/-- The initial state of `AsciiSquare`. -/
def squareInit : SquareState :=
  { basePoints := basePointsSq, screenArray := createNewScreen }

/-! ## The early point-cloud square variant

The first `ascii-tesseract` class (part_001): `SIZE = 21`,
`HALFSIZE = 10`, `CANVAS_SIZE = 41`, `HALFCANVAS = 20`.  Its
`calculateRotation` assigns the rotated (and re-rounded) points back to
`this.points`. -/

/-- The initial `points` field: all 441 grid positions, keeping the 80
on the boundary of the 21×21 square. -/
def points001Init : List (ℤ × ℤ) :=
  (((List.range (21 * 21)).map fun i =>
      (((i / 21 : ℕ) : ℤ) - 10, ((i % 21 : ℕ) : ℤ) - 10)).filter fun p =>
    decide (p.1 = -10) || decide (p.1 = 10) || decide (p.2 = -10) || decide (p.2 = 10))

/-- The state of the point-cloud component: its `points` field is the
only vertex storage it has. -/
structure Points001State where
  points : List (ℤ × ℤ)
  screenArray : Grid

/-- `drawPoints()`: shift every point by `HALFCANVAS`, clip to the
41×41 canvas, and write `'#'` at each surviving cell of a fresh screen. -/
def drawPoints001 (pts : List (ℤ × ℤ)) : Grid :=
  (((pts.map fun p => (p.1 + 20, p.2 + 20)).filter fun p =>
      decide (0 ≤ p.1) && decide (p.1 < 41) && decide (0 ≤ p.2) && decide (p.2 < 41)).foldl
    (fun g p => setCell g p.2.toNat p.1.toNat '#') createNewScreen)

/-- One reactive update of the point-cloud component (`willUpdate`):
`calculateRotation()` assigns `this.points = this.points.map(…)` — the
stored points themselves are replaced by their rotated, re-rounded
images — and then `drawPoints()` rebuilds the screen. -/
def step001 (cosA sinA : ℚ) (st : Points001State) : Points001State :=
  let rotated := st.points.map fun p =>
    (jsRound ((p.1 : ℚ) * cosA - (p.2 : ℚ) * sinA),
     jsRound ((p.1 : ℚ) * sinA + (p.2 : ℚ) * cosA))
  { points := rotated, screenArray := drawPoints001 rotated }

/-- The initial state of the point-cloud component. -/
def init001 : Points001State :=
  { points := points001Init, screenArray := createNewScreen }

/-! ## `AsciiTessarect` (the 4-D renderer)

Constants: `SIZE = 10`, `HALFSIZE = 5`, `CANVAS_SIZE = 60`,
`HALFCANVAS = 30`, `Z_OFFSET = Math.round(√3·HALFSIZE·5) = 43`,
`W_OFFSET = Math.round(2·HALFSIZE·5) = 50`. -/

/-- `BASE_POINTS`: 16 vertices; bit `b` of the index selects
`+HALFSIZE`/`-HALFSIZE` on axis `b` (`(i & 1) ? H : -H`, …). -/
def BASE_POINTS_T : List (ℤ × ℤ × ℤ × ℤ) :=
  (List.range 16).map fun i =>
    (if i &&& 1 ≠ 0 then 5 else -5, if i &&& 2 ≠ 0 then 5 else -5,
     if i &&& 4 ≠ 0 then 5 else -5, if i &&& 8 ≠ 0 then 5 else -5)

/-- `EDGES`: the hard-coded list of 32 vertex-index pairs. -/
def EDGES_T : List (ℕ × ℕ) :=
  [(0, 1), (1, 2), (2, 3), (3, 0),
   (4, 5), (5, 6), (6, 7), (7, 4),
   (0, 4), (1, 5), (2, 6), (3, 7),
   (8, 9), (9, 10), (10, 11), (11, 8),
   (12, 13), (13, 14), (14, 15), (15, 12),
   (8, 12), (9, 13), (10, 14), (11, 15),
   (0, 8), (1, 9), (2, 10), (3, 11),
   (4, 12), (5, 13), (6, 14), (7, 15)]

/-- A rotated 4-D vertex. -/
abbrev Point4 := ℚ × ℚ × ℚ × ℚ

/-- The XY stage of `calculateRotation`:
`[x*cosXY - y*sinXY, x*sinXY + y*cosXY, z, w]`. -/
def rotXY (c s : ℚ) (p : Point4) : Point4 :=
  (p.1 * c - p.2.1 * s, p.1 * s + p.2.1 * c, p.2.2.1, p.2.2.2)

/-- The YZ stage: `[x, y*cosYZ - z*sinYZ, y*sinYZ + z*cosYZ, w]`. -/
def rotYZ (c s : ℚ) (p : Point4) : Point4 :=
  (p.1, p.2.1 * c - p.2.2.1 * s, p.2.1 * s + p.2.2.1 * c, p.2.2.2)

/-- The ZW stage: `[x, y, z*cosZW - w*sinZW, z*sinZW + w*cosZW]`. -/
def rotZW (c s : ℚ) (p : Point4) : Point4 :=
  (p.1, p.2.1, p.2.2.1 * c - p.2.2.2 * s, p.2.2.1 * s + p.2.2.2 * c)

/-- The WX stage: `[w*sinWX + x*cosWX, y, z, w*cosWX - x*sinWX]`. -/
def rotWX (c s : ℚ) (p : Point4) : Point4 :=
  (p.2.2.2 * s + p.1 * c, p.2.1, p.2.2.1, p.2.2.2 * c - p.1 * s)

/-- `AsciiTessarect.calculateRotation()`, parametrized by the values of
the four sines and cosines: the chain of four `.map` calls over
`BASE_POINTS` (coerced from their integer definitions into `ℚ`). -/
def calcRotationT (cXY sXY cYZ sYZ cZW sZW cWX sWX : ℚ) : List Point4 :=
  ((((BASE_POINTS_T.map fun p =>
        ((p.1 : ℚ), (p.2.1 : ℚ), (p.2.2.1 : ℚ), (p.2.2.2 : ℚ))).map
      (rotXY cXY sXY)).map (rotYZ cYZ sYZ)).map (rotZW cZW sZW)).map (rotWX cWX sWX)

/-- `Z_OFFSET = Math.round(Math.sqrt(3) * HALFSIZE * 5)` with
`HALFSIZE = 5`; see `Z_OFFSET_T_is_round` for the rounding. -/
def Z_OFFSET_T : ℚ := 43

/-- `W_OFFSET = Math.round(2 * HALFSIZE * 5) = 50`. -/
def W_OFFSET_T : ℚ := 50

/-- `MAX_RADIUS_4D = SIZE = 10`. -/
def MAX_RADIUS_4D : ℚ := 10

/-- `MAX_RADIUS_3D = MAX_RADIUS_4D * (W_OFFSET / (W_OFFSET - MAX_RADIUS_4D))`. -/
def MAX_RADIUS_3D : ℚ := MAX_RADIUS_4D * (W_OFFSET_T / (W_OFFSET_T - MAX_RADIUS_4D))

/-- `MAX_RADIUS_2D_NORMAL = MAX_RADIUS_3D * (Z_OFFSET / (Z_OFFSET - MAX_RADIUS_3D))`. -/
def MAX_RADIUS_2D_NORMAL : ℚ := MAX_RADIUS_3D * (Z_OFFSET_T / (Z_OFFSET_T - MAX_RADIUS_3D))

/-- `FOV = HALFCANVAS / MAX_RADIUS_2D_NORMAL * 1.7` with `HALFCANVAS = 30`. -/
def FOV_T : ℚ := 30 / MAX_RADIUS_2D_NORMAL * (17 / 10)

/-- `AsciiTessarect.projectTo2D(points)`: the W-fold
(`scale = W_OFFSET / (w + W_OFFSET)` applied to `[x, y, z]`), then the
Z-fold (`scale = Z_OFFSET / (z + Z_OFFSET)` applied to `[x, y]`), then
`FOV` scaling and `Math.round` on both remaining coordinates. -/
def projectTo2DT (pts : List Point4) : List (ℤ × ℤ) :=
  ((pts.map fun p =>
      let scale := W_OFFSET_T / (p.2.2.2 + W_OFFSET_T)
      (p.1 * scale, p.2.1 * scale, p.2.2.1 * scale)).map fun p =>
    let scale := Z_OFFSET_T / (p.2.2 + Z_OFFSET_T)
    (p.1 * scale, p.2.1 * scale)).map fun p =>
      (jsRound (FOV_T * p.1), jsRound (FOV_T * p.2))

/-! ## `AsciiCube` (the 3-D renderer)

Constants: `SIZE = 20`, `HALFSIZE = 10`, `CANVAS_SIZE = 40`,
`Z_OFFSET = Math.round(√3·10·5) = 87`, `FOV = CANVAS_SIZE * 2 = 80`. -/

/-- `Z_OFFSET` of `AsciiCube`; see `Z_OFFSET_C_is_round`. -/
def Z_OFFSET_C : ℚ := 87

/-- `FOV` of `AsciiCube`. -/
def FOV_C : ℚ := 80

/-- `AsciiCube.projectTo2D(points)`:
`scale = FOV / (z + Z_OFFSET)`, then `Math.round(x*scale)` and
`Math.round(y*scale)`. -/
def projectTo2DC (pts : List (ℚ × ℚ × ℚ)) : List (ℤ × ℤ) :=
  pts.map fun p =>
    let scale := FOV_C / (p.2.2 + Z_OFFSET_C)
    (jsRound (p.1 * scale), jsRound (p.2.1 * scale))

/-! ## The Bresenham `AsciiTesseract` variant (src/ascii-tesseract.ts) -/

/-- `lineASCII = "-\\|/"`. -/
def lineASCII : List Char := "-\\|/".toList

/-- The index expression of the direction classifier `chooseASCII`:
`Number(dx > 2*dy)*0 + Number(2*dx >= dy && dy > dx)*1 +
Number(dy > 2*dx)*2 + Number(2*dy >= dx && dx > dy)*3`
over `dx = |x1 - x0|`, `dy = |y1 - y0|`. -/
def dirIndex (x0 y0 x1 y1 : ℤ) : ℕ :=
  let dx := |x1 - x0|
  let dy := |y1 - y0|
  (if dx > 2 * dy then 1 else 0) * 0 +
  (if 2 * dx ≥ dy ∧ dy > dx then 1 else 0) * 1 +
  (if dy > 2 * dx then 1 else 0) * 2 +
  (if 2 * dy ≥ dx ∧ dx > dy then 1 else 0) * 3

/-- The direction-to-glyph classifier `chooseASCII(x0, y0, x1, y1)` of
the Bresenham variant: `this.lineASCII[index]`. -/
def chooseASCIIDir (x0 y0 x1 y1 : ℤ) : Char :=
  lineASCII.getD (dirIndex x0 y0 x1 y1) ' '


/-! ## Vertex/edge data of `AsciiCube` (for the k = 3 half of the claims) -/

/-- `BASE_POINTS` of `AsciiCube` (`HALFSIZE = 10`), listed cyclically per face. -/
def BASE_POINTS_C : List (ℤ × ℤ × ℤ) :=
  [(-10, -10, -10), (10, -10, -10), (10, 10, -10), (-10, 10, -10),
   (-10, -10, 10), (10, -10, 10), (10, 10, 10), (-10, 10, 10)]

/-- `EDGES` of `AsciiCube`: 12 vertex-index pairs. -/
def EDGES_C : List (ℕ × ℕ) :=
  [(0, 1), (1, 2), (2, 3), (3, 0),
   (4, 5), (5, 6), (6, 7), (7, 4),
   (0, 4), (1, 5), (2, 6), (3, 7)]

/-! ## Measures used to state the edge-topology claims -/

/-- Number of coordinates in which two 4-D vertices differ. -/
def diffCoordCount (p q : ℤ × ℤ × ℤ × ℤ) : ℕ :=
  (if p.1 = q.1 then 0 else 1) + (if p.2.1 = q.2.1 then 0 else 1) +
  (if p.2.2.1 = q.2.2.1 then 0 else 1) + (if p.2.2.2 = q.2.2.2 then 0 else 1)

/-- Number of coordinates in which two 3-D vertices differ. -/
def diffCoordCount3 (p q : ℤ × ℤ × ℤ) : ℕ :=
  (if p.1 = q.1 then 0 else 1) + (if p.2.1 = q.2.1 then 0 else 1) +
  (if p.2.2 = q.2.2 then 0 else 1)

/-- Number of bit positions (among the low four) where two vertex
indices differ. -/
def diffBitCount (i j : ℕ) : ℕ :=
  ((List.range 4).filter fun b => i.testBit b != j.testBit b).length

/-! ## Claim-side definitions

These restate what the specification claims, to be compared with the
definitions translated from the source.  `stepPair` is one step of the
claimed rasterizer contract: the floor cell with brightness `1 - frac`
followed by the cell one further along the secondary axis with
brightness `frac`, un-transposed when `steep`. -/

/-- One claimed step of the antialiased rasterizer at dominant
coordinate `u` and exact secondary position `e`. -/
def stepPair (steep : Bool) (u : ℤ) (e : ℚ) : List Sample :=
  [(if steep then ((⌊e⌋, u, 1 - (e - ⌊e⌋)) : Sample) else (u, ⌊e⌋, 1 - (e - ⌊e⌋))),
   (if steep then (⌊e⌋ + 1, u, e - ⌊e⌋) else (u, ⌊e⌋ + 1, e - ⌊e⌋))]

/-- The claimed sample sequence after transpose/ordering: `n` steps
`k = 0, 1, …`, with exact secondary position
`v0 + k · (v1 - v0)/(u1 - u0)` at step `k`. -/
def claimSteps (steep : Bool) (u0 v0 u1 v1 : ℤ) (n : ℕ) : List Sample :=
  (List.range n).flatMap fun k =>
    stepPair steep (u0 + k) ((v0 : ℚ) + k * ((v1 - v0 : ℚ) / ((u1 - u0 : ℚ))))

/-- The length of the dominant axis, `max |x1 - x0| |y1 - y0|`. -/
def dominantLen (x0 y0 x1 y1 : ℤ) : ℕ := max (x1 - x0).natAbs (y1 - y0).natAbs

/-- The rasterizer contract exactly as the claim words it: transpose
when steep, swap the endpoints so iteration ascends, and emit one
`stepPair` per integer step along the dominant axis. -/
def drawLineClaim (x0 y0 x1 y1 : ℤ) : List Sample :=
  if |y1 - y0| > |x1 - x0| then
    if y0 > y1 then claimSteps true y1 x1 y0 x0 (dominantLen x0 y0 x1 y1 + 1)
    else claimSteps true y0 x0 y1 x1 (dominantLen x0 y0 x1 y1 + 1)
  else
    if x0 > x1 then claimSteps false x1 y1 x0 y0 (dominantLen x0 y0 x1 y1 + 1)
    else claimSteps false x0 y0 x1 y1 (dominantLen x0 y0 x1 y1 + 1)

/-- A planar (Givens) rotation on the axis pair `(a, b)` of a
4-dimensional point, exactly as the claim words it: the pair
`(v a, v b)` becomes `(v a · c - v b · s, v a · s + v b · c)` and every
other coordinate is untouched. -/
def givens (a b : Fin 4) (c s : ℚ) (v : Fin 4 → ℚ) : Fin 4 → ℚ := fun i =>
  if i = a then v a * c - v b * s else if i = b then v a * s + v b * c else v i

/-- View a 4-tuple as a function on `Fin 4` (axes X, Y, Z, W). -/
def tupleToFun (p : Point4) : Fin 4 → ℚ
  | 0 => p.1
  | 1 => p.2.1
  | 2 => p.2.2.1
  | 3 => p.2.2.2

/-- View a function on `Fin 4` as a 4-tuple. -/
def funToTuple (v : Fin 4 → ℚ) : Point4 := (v 0, v 1, v 2, v 3)

/-- The per-point projection contract of the claim for k = 4: the
perspective fold for W (scale the lower coordinates by
`C / (C + w)` and drop `w`), then the fold for Z, then the uniform
field-of-view scale and rounding. -/
def projPointClaim4 (p : Point4) : ℤ × ℤ :=
  let f1 := W_OFFSET_T / (W_OFFSET_T + p.2.2.2)
  let q : ℚ × ℚ × ℚ := (p.1 * f1, p.2.1 * f1, p.2.2.1 * f1)
  let f2 := Z_OFFSET_T / (Z_OFFSET_T + q.2.2)
  let w : ℚ × ℚ := (q.1 * f2, q.2.1 * f2)
  (jsRound (FOV_T * w.1), jsRound (FOV_T * w.2))

/-- The per-point projection contract of the claim for k = 3: one
perspective fold for Z then one uniform field-of-view scale factor
(`FOV / Z_OFFSET`) and rounding. -/
def projPointClaim3 (p : ℚ × ℚ × ℚ) : ℤ × ℤ :=
  let f := Z_OFFSET_C / (Z_OFFSET_C + p.2.2)
  let q : ℚ × ℚ := (p.1 * f, p.2.1 * f)
  (jsRound ((FOV_C / Z_OFFSET_C) * q.1), jsRound ((FOV_C / Z_OFFSET_C) * q.2))

/-! ## Verification predicates -/

/-- A well-formed `AsciiSquare` frame: 41 rows of 41 characters. -/
def GridOK (g : Grid) : Prop := g.length = 41 ∧ ∀ row ∈ g, row.length = 41

/-- Two characters agree up to the density band: both blank, or both
members of the same `DENSITY` band. -/
def cellR (c1 c2 : Char) : Prop :=
  (c1 = ' ' ∧ c2 = ' ') ∨
  ∃ k : ℕ, k < 10 ∧ c1 ∈ (DENSITY.getD k "").toList ∧ c2 ∈ (DENSITY.getD k "").toList

/-- Two frames agree up to the density band, cell by cell. -/
def GridR (g1 g2 : Grid) : Prop :=
  g1.length = g2.length ∧
  (∀ y : ℕ, (g1.getD y []).length = (g2.getD y []).length) ∧
  ∀ y x : ℕ, cellR (cellAt g1 y x) (cellAt g2 y x)


/-! ## Helper lemmas -/

theorem givensChain_eval (cXY sXY cYZ sYZ cZW sZW cWX sWX : ℚ) (p : Point4) :
    funToTuple (givens 3 0 cWX sWX (givens 2 3 cZW sZW (givens 1 2 cYZ sYZ
      (givens 0 1 cXY sXY (tupleToFun p))))) =
    rotWX cWX sWX (rotZW cZW sZW (rotYZ cYZ sYZ (rotXY cXY sXY p))) := rfl

-- C8

theorem Z_OFFSET_T_is_round : (⌊Real.sqrt 3 * (5 * 5) + 1/2⌋ : ℤ) = 43 ∧ Z_OFFSET_T = 43 := by
  constructor
  · have h1 : Real.sqrt 3 < 174/100 := by
      rw [show (174/100 : ℝ) = Real.sqrt ((174/100)^2) from (Real.sqrt_sq (by norm_num)).symm]
      apply Real.sqrt_lt_sqrt (by norm_num)
      norm_num
    have h2 : (17/10 : ℝ) < Real.sqrt 3 := by
      rw [show (17/10 : ℝ) = Real.sqrt ((17/10)^2) from (Real.sqrt_sq (by norm_num)).symm]
      apply Real.sqrt_lt_sqrt (by norm_num)
      norm_num
    rw [Int.floor_eq_iff]
    constructor
    · push_cast; nlinarith
    · push_cast; nlinarith
  · rfl

theorem Z_OFFSET_C_is_round : (⌊Real.sqrt 3 * (10 * 5) + 1/2⌋ : ℤ) = 87 ∧ Z_OFFSET_C = 87 := by
  constructor
  · have h1 : Real.sqrt 3 < 174/100 := by
      rw [show (174/100 : ℝ) = Real.sqrt ((174/100)^2) from (Real.sqrt_sq (by norm_num)).symm]
      apply Real.sqrt_lt_sqrt (by norm_num)
      norm_num
    have h2 : (173/100 : ℝ) < Real.sqrt 3 := by
      rw [show (173/100 : ℝ) = Real.sqrt ((173/100)^2) from (Real.sqrt_sq (by norm_num)).symm]
      apply Real.sqrt_lt_sqrt (by norm_num)
      norm_num
    rw [Int.floor_eq_iff]
    constructor
    · push_cast; nlinarith
    · push_cast; nlinarith
  · rfl

theorem lineSamples_eq (steep : Bool) (grad : ℚ) (n : ℕ) :
    ∀ (x : ℤ) (e : ℚ),
      lineSamples steep grad n x e =
        (List.range n).flatMap fun k => stepPair steep (x + k) (e + k * grad) := by
  induction n with
  | zero => intro x e; simp [lineSamples]
  | succ n ih =>
    intro x e
    rw [List.range_succ_eq_map, List.flatMap_cons, List.flatMap_map]
    have hzero : stepPair steep (x + ((0 : ℕ) : ℤ)) (e + ((0 : ℕ) : ℚ) * grad)
        = stepPair steep x e := by norm_num
    rw [hzero]
    have htail : (List.range n).flatMap (fun k => stepPair steep (x + (Nat.succ k : ℕ))
          (e + ((Nat.succ k : ℕ) : ℚ) * grad))
        = lineSamples steep grad n (x + 1) (e + grad) := by
      rw [ih (x + 1) (e + grad)]
      refine congrArg _ ?_
      funext k
      have h1 : (x + ((Nat.succ k : ℕ) : ℤ)) = (x + 1) + (k : ℤ) := by push_cast; ring
      have h2 : (e + ((Nat.succ k : ℕ) : ℚ) * grad) = (e + grad) + (k : ℚ) * grad := by
        push_cast; ring
      rw [h1, h2]
    rw [htail]
    rw [lineSamples]
    simp [stepPair]

theorem lineGo_eq (steep : Bool) (u0 v0 u1 v1 : ℤ) :
    lineGo steep u0 v0 u1 v1 = claimSteps steep u0 v0 u1 v1 (u1 - u0 + 1).toNat := by
  rw [lineGo, lineSamples_eq, claimSteps]

theorem claimSteps_length (steep : Bool) (u0 v0 u1 v1 : ℤ) (n : ℕ) :
    (claimSteps steep u0 v0 u1 v1 n).length = 2 * n := by
  rw [claimSteps, List.length_flatMap]
  have h2 : ∀ (l : List ℕ) (f : ℕ → List Sample), (∀ k, (f k).length = 2) →
      (List.map (List.length ∘ f) l).sum = 2 * l.length := by
    intro l f hf
    induction l with
    | nil => simp
    | cons a t ih =>
      simp only [List.map_cons, List.sum_cons, Function.comp, hf, ih, List.length_cons]
      ring
  rw [h2 _ _ (fun k => by simp [stepPair]), List.length_range]

-- C4

theorem exact_between (v0 v1 u0 u1 : ℤ) (hd : u0 ≤ u1) (k : ℕ) (hk : (k : ℤ) ≤ u1 - u0) :
    ((min v0 v1 : ℤ) : ℚ) ≤ (v0 : ℚ) + k * ((v1 - v0 : ℚ) / ((u1 - u0 : ℚ))) ∧
    (v0 : ℚ) + k * ((v1 - v0 : ℚ) / ((u1 - u0 : ℚ))) ≤ ((max v0 v1 : ℤ) : ℚ) := by
  have hmin : ((min v0 v1 : ℤ) : ℚ) ≤ ((v0 : ℤ) : ℚ) := by exact_mod_cast min_le_left v0 v1
  have hmax : ((v0 : ℤ) : ℚ) ≤ ((max v0 v1 : ℤ) : ℚ) := by exact_mod_cast le_max_left v0 v1
  rcases eq_or_lt_of_le hd with heq | hlt
  · have hk0 : k = 0 := by omega
    subst hk0
    constructor
    · simpa using hmin
    · simpa using hmax
  · have hdq : (0 : ℚ) < (u1 : ℚ) - (u0 : ℚ) := by
      have : ((u0 : ℤ) : ℚ) < ((u1 : ℤ) : ℚ) := by exact_mod_cast hlt
      linarith
    have ht0 : (0 : ℚ) ≤ (k : ℚ) / ((u1 : ℚ) - (u0 : ℚ)) := by positivity
    have ht1 : (k : ℚ) / ((u1 : ℚ) - (u0 : ℚ)) ≤ 1 := by
      rw [div_le_one hdq]
      have : ((k : ℤ) : ℚ) ≤ ((u1 - u0 : ℤ) : ℚ) := by exact_mod_cast hk
      push_cast at this
      linarith
    have hrw : (v0 : ℚ) + k * ((v1 - v0 : ℚ) / ((u1 - u0 : ℚ))) =
        (v0 : ℚ) + ((k : ℚ) / ((u1 : ℚ) - (u0 : ℚ))) * ((v1 : ℚ) - (v0 : ℚ)) := by
      ring
    rw [hrw]
    rcases le_total v0 v1 with hle | hle
    · rw [min_eq_left hle, max_eq_right hle] at *
      have hc : ((v0 : ℤ) : ℚ) ≤ ((v1 : ℤ) : ℚ) := by exact_mod_cast hle
      constructor <;> nlinarith
    · rw [min_eq_right hle, max_eq_left hle] at *
      have hc : ((v1 : ℤ) : ℚ) ≤ ((v0 : ℤ) : ℚ) := by exact_mod_cast hle
      constructor <;> nlinarith

theorem lineGo_sample (steep : Bool) (u0 v0 u1 v1 : ℤ) (h : u0 ≤ u1) (p : Sample)
    (hp : p ∈ lineGo steep u0 v0 u1 v1) :
    (0 ≤ p.2.2 ∧ p.2.2 ≤ 1) ∧
    ∃ u fl : ℤ, u0 ≤ u ∧ u ≤ u1 ∧ min v0 v1 ≤ fl ∧ fl ≤ max v0 v1 + 1 ∧
      p = (if steep then (fl, u, p.2.2) else (u, fl, p.2.2)) := by
  rw [lineGo_eq, claimSteps] at hp
  rw [List.mem_flatMap] at hp
  obtain ⟨k, hk, hmem⟩ := hp
  rw [List.mem_range] at hk
  have hkle : (k : ℤ) ≤ u1 - u0 := by omega
  obtain ⟨hlo, hhi⟩ := exact_between v0 v1 u0 u1 h k hkle
  set e : ℚ := (v0 : ℚ) + k * ((v1 - v0 : ℚ) / ((u1 - u0 : ℚ))) with he
  have hfl_lo : min v0 v1 ≤ ⌊e⌋ := Int.le_floor.mpr hlo
  have hfl_hi : ⌊e⌋ ≤ max v0 v1 := by
    have h1 := Int.floor_le_floor hhi
    rwa [Int.floor_intCast] at h1
  have hfr0 : (0 : ℚ) ≤ e - ⌊e⌋ := by
    rw [Int.self_sub_floor]; exact Int.fract_nonneg e
  have hfr1 : e - ⌊e⌋ < 1 := by
    rw [Int.self_sub_floor]; exact Int.fract_lt_one e
  simp only [stepPair, List.mem_cons, List.not_mem_nil, or_false] at hmem
  rcases hmem with rfl | rfl
  · cases steep
    · simp only [Bool.false_eq_true, if_false]
      exact ⟨⟨by linarith, by linarith⟩,
        u0 + k, ⌊e⌋, by omega, by omega, hfl_lo, by omega, rfl⟩
    · simp only [if_true]
      exact ⟨⟨by linarith, by linarith⟩,
        u0 + k, ⌊e⌋, by omega, by omega, hfl_lo, by omega, rfl⟩
  · cases steep
    · simp only [Bool.false_eq_true, if_false]
      exact ⟨⟨by linarith, by linarith⟩,
        u0 + k, ⌊e⌋ + 1, by omega, by omega, by omega, by omega, rfl⟩
    · simp only [if_true]
      exact ⟨⟨by linarith, by linarith⟩,
        u0 + k, ⌊e⌋ + 1, by omega, by omega, by omega, by omega, rfl⟩

theorem drawLine_sample (x0 y0 x1 y1 : ℤ) (p : Sample) (hp : p ∈ drawLine x0 y0 x1 y1) :
    (0 ≤ p.2.2 ∧ p.2.2 ≤ 1) ∧
    min x0 x1 ≤ p.1 ∧ p.1 ≤ max x0 x1 + 1 ∧ min y0 y1 ≤ p.2.1 ∧ p.2.1 ≤ max y0 y1 + 1 := by
  unfold drawLine at hp
  split_ifs at hp with h1 h2 h3
  · obtain ⟨hb, u, fl, hu0, hu1, hfl0, hfl1, hpe⟩ :=
      lineGo_sample true y1 x1 y0 x0 (by omega) p hp
    simp only [if_true] at hpe
    refine ⟨hb, ?_, ?_, ?_, ?_⟩ <;> rw [hpe] <;> simp <;> omega
  · obtain ⟨hb, u, fl, hu0, hu1, hfl0, hfl1, hpe⟩ :=
      lineGo_sample true y0 x0 y1 x1 (by omega) p hp
    simp only [if_true] at hpe
    refine ⟨hb, ?_, ?_, ?_, ?_⟩ <;> rw [hpe] <;> simp <;> omega
  · obtain ⟨hb, u, fl, hu0, hu1, hfl0, hfl1, hpe⟩ :=
      lineGo_sample false x1 y1 x0 y0 (by omega) p hp
    simp only [Bool.false_eq_true, if_false] at hpe
    refine ⟨hb, ?_, ?_, ?_, ?_⟩ <;> rw [hpe] <;> simp <;> omega
  · obtain ⟨hb, u, fl, hu0, hu1, hfl0, hfl1, hpe⟩ :=
      lineGo_sample false x0 y0 x1 y1 (by omega) p hp
    simp only [Bool.false_eq_true, if_false] at hpe
    refine ⟨hb, ?_, ?_, ?_, ?_⟩ <;> rw [hpe] <;> simp <;> omega

theorem gridOK_createNewScreen : GridOK createNewScreen := by
  constructor
  · simp [createNewScreen]
  · intro row hrow
    rw [createNewScreen] at hrow
    rw [List.eq_of_mem_replicate hrow]
    simp

theorem gridOK_setCell (g : Grid) (y x : ℕ) (ch : Char) (hg : GridOK g) :
    GridOK (setCell g y x ch) := by
  obtain ⟨hlen, hrow⟩ := hg
  refine ⟨by rw [setCell, List.length_set, hlen], ?_⟩
  intro row hr
  rw [setCell] at hr
  by_cases hy : y < g.length
  · rcases List.mem_or_eq_of_mem_set hr with hmem | heq
    · exact hrow row hmem
    · rw [heq, List.length_set, List.getD_eq_getElem _ _ hy]
      exact hrow _ (List.getElem_mem hy)
  · rw [List.set_eq_of_length_le (by omega)] at hr
    exact hrow row hr

theorem gridOK_foldl {α : Type} (step : Grid → α → Grid)
    (hstep : ∀ g a, GridOK g → GridOK (step g a)) :
    ∀ (L : List α) (g : Grid), GridOK g → GridOK (L.foldl step g) := by
  intro L
  induction L with
  | nil => intro g hg; exact hg
  | cons a t ih => intro g hg; exact ih _ (hstep g a hg)

theorem drawFrameSq_gridOK (cosA sinA : ℚ) (r : ℕ → ℚ) (base : List (ℤ × ℤ)) :
    GridOK (drawFrameSq cosA sinA r base) := by
  rw [drawFrameSq, writeSamples]
  exact gridOK_foldl _ (fun g a hg => gridOK_setCell _ _ _ _ hg) _ _ gridOK_createNewScreen

theorem clip_far_edge (x0 y0 x1 y1 : ℤ)
    (hfar : max x0 x1 + 1 < -20 ∨ 20 < min x0 x1 ∨ max y0 y1 + 1 < -20 ∨ 20 < min y0 y1) :
    clipSamples (drawLine x0 y0 x1 y1) = [] := by
  rw [clipSamples, List.filter_eq_nil_iff]
  intro a ha
  rw [List.mem_map] at ha
  obtain ⟨p, hp, rfl⟩ := ha
  obtain ⟨-, hx0, hx1, hy0, hy1⟩ := drawLine_sample x0 y0 x1 y1 p hp
  simp only [inBounds, shiftSample, Bool.and_eq_true, decide_eq_true_eq, not_and, and_imp]
  omega

-- C6

theorem bandIdx_eq (b : ℚ) : bandIdx b = ⌊b * 9⌋ := by
  rw [bandIdx]
  norm_num [DENSITY]

theorem bandIdx_bounds (b : ℚ) (h0 : 0 ≤ b) (h1 : b ≤ 1) :
    0 ≤ bandIdx b ∧ bandIdx b ≤ 9 := by
  rw [bandIdx_eq]
  constructor
  · exact Int.floor_nonneg.mpr (by positivity)
  · calc ⌊b * 9⌋ ≤ ⌊(9 : ℚ)⌋ := Int.floor_le_floor (by nlinarith)
    _ = 9 := by norm_num

theorem band_length (k : ℕ) (hk : k ≤ 9) : ((DENSITY.getD k "").toList.length) = 7 := by
  revert hk
  revert k
  decide

theorem chooseASCII_mem_band (r b : ℚ) (hb0 : 0 ≤ b) (hb1 : b ≤ 1)
    (hr0 : 0 ≤ r) (hr1 : r < 1) :
    chooseASCII r b ∈ (DENSITY.getD (bandIdx b).toNat "").toList := by
  obtain ⟨hbl, hbu⟩ := bandIdx_bounds b hb0 hb1
  have hblen := band_length (bandIdx b).toNat (by omega)
  simp only [chooseASCII]
  have hfl : ⌊r * (((DENSITY.getD (bandIdx b).toNat "").toList.length : ℕ) : ℚ)⌋ < 7 := by
    rw [hblen]
    exact Int.floor_lt.mpr (by push_cast; nlinarith)
  have hlt : (⌊r * (((DENSITY.getD (bandIdx b).toNat "").toList.length : ℕ) : ℚ)⌋).toNat <
      (DENSITY.getD (bandIdx b).toNat "").toList.length := by omega
  rw [List.getD_eq_getElem _ _ hlt]
  exact List.getElem_mem _

theorem cellR_blank : cellR ' ' ' ' := Or.inl ⟨rfl, rfl⟩

theorem row_blank (x : ℕ) : (List.replicate 41 (' ' : Char)).getD x ' ' = ' ' := by
  rcases lt_or_ge x 41 with hx | hx
  · rw [List.getD_eq_getElem _ _ (by simpa using hx), List.getElem_replicate]
  · rw [List.getD_eq_default _ _ (by simpa using hx)]

theorem cellAt_blank (y x : ℕ) : cellAt createNewScreen y x = ' ' := by
  have houter : (List.replicate 41 (List.replicate 41 (' ' : Char))).getD y [] =
      if y < 41 then List.replicate 41 ' ' else [] := by
    rcases lt_or_ge y 41 with hy | hy
    · rw [if_pos hy, List.getD_eq_getElem _ _ (by simpa using hy), List.getElem_replicate]
    · rw [if_neg (by omega), List.getD_eq_default _ _ (by simpa using hy)]
  rw [cellAt, createNewScreen, houter]
  rcases lt_or_ge y 41 with hy | hy
  · rw [if_pos hy]
    exact row_blank x
  · rw [if_neg (by omega)]
    rfl

theorem gridR_blank : GridR createNewScreen createNewScreen :=
  ⟨rfl, fun _ => rfl, fun y x => by rw [cellAt_blank]; exact cellR_blank⟩

theorem cellR_chooseASCII (b r1 r2 : ℚ) (hb : 0 ≤ b ∧ b ≤ 1)
    (h1 : 0 ≤ r1 ∧ r1 < 1) (h2 : 0 ≤ r2 ∧ r2 < 1) :
    cellR (chooseASCII r1 b) (chooseASCII r2 b) := by
  right
  obtain ⟨hbl, hbu⟩ := bandIdx_bounds b hb.1 hb.2
  exact ⟨(bandIdx b).toNat, by omega,
    chooseASCII_mem_band r1 b hb.1 hb.2 h1.1 h1.2,
    chooseASCII_mem_band r2 b hb.1 hb.2 h2.1 h2.2⟩

theorem getD_set_general {α : Type} (l : List α) (i j : ℕ) (a d : α) :
    (l.set i a).getD j d = if i = j ∧ i < l.length then a else l.getD j d := by
  by_cases hij : i = j
  · subst hij
    by_cases hi : i < l.length
    · rw [if_pos ⟨rfl, hi⟩, List.getD_eq_getElem _ _ (by rw [List.length_set]; omega),
        List.getElem_set_self]
    · rw [if_neg (by tauto), List.set_eq_of_length_le (by omega)]
  · rw [if_neg (by tauto)]
    by_cases hj : j < l.length
    · rw [List.getD_eq_getElem _ _ (by rw [List.length_set]; omega),
        List.getD_eq_getElem _ _ hj, List.getElem_set_ne hij]
    · rw [List.getD_eq_default _ _ (by rw [List.length_set]; omega),
        List.getD_eq_default _ _ (by omega)]

theorem gridR_setCell (g1 g2 : Grid) (hR : GridR g1 g2) (y x : ℕ) (c1 c2 : Char)
    (hc : cellR c1 c2) : GridR (setCell g1 y x c1) (setCell g2 y x c2) := by
  obtain ⟨hlen, hrows, hcells⟩ := hR
  refine ⟨?_, ?_, ?_⟩
  · rw [setCell, setCell, List.length_set, List.length_set, hlen]
  · intro y2
    rw [setCell, setCell, getD_set_general, getD_set_general, hlen]
    by_cases h : y = y2 ∧ y < g2.length
    · rw [if_pos h, if_pos h, List.length_set, List.length_set, hrows y]
    · rw [if_neg h, if_neg h]
      exact hrows y2
  · intro y2 x2
    rw [cellAt, cellAt, setCell, setCell, getD_set_general, getD_set_general, hlen]
    by_cases h : y = y2 ∧ y < g2.length
    · rw [if_pos h, if_pos h, getD_set_general, getD_set_general, hrows y]
    
      by_cases h2 : x = x2 ∧ x < (g2.getD y []).length
      · rw [if_pos h2, if_pos h2]
        exact hc
      · rw [if_neg h2, if_neg h2]
        obtain ⟨hyy, -⟩ := h
        subst hyy
        exact hcells y x2
    · rw [if_neg h, if_neg h]
      exact hcells y2 x2

theorem gridR_writes (r1 r2 : ℕ → ℚ)
    (hr1 : ∀ n, 0 ≤ r1 n ∧ r1 n < 1) (hr2 : ∀ n, 0 ≤ r2 n ∧ r2 n < 1) :
    ∀ (samples : List Sample), (∀ s ∈ samples, 0 ≤ s.2.2 ∧ s.2.2 ≤ 1) →
    ∀ (n : ℕ) (g1 g2 : Grid), GridR g1 g2 →
      GridR ((List.enumFrom n samples).foldl
              (fun g ks => setCell g ks.2.2.1.toNat ks.2.1.toNat (chooseASCII (r1 ks.1) ks.2.2.2)) g1)
            ((List.enumFrom n samples).foldl
              (fun g ks => setCell g ks.2.2.1.toNat ks.2.1.toNat (chooseASCII (r2 ks.1) ks.2.2.2)) g2) := by
  intro samples
  induction samples with
  | nil => intro _ n g1 g2 h; exact h
  | cons s t ih =>
    intro hb n g1 g2 h
    rw [List.enumFrom_cons]
    simp only [List.foldl_cons]
    exact ih (fun u hu => hb u (List.mem_cons_of_mem _ hu)) (n + 1) _ _
      (gridR_setCell _ _ h _ _ _ _
        (cellR_chooseASCII s.2.2 (r1 n) (r2 n) (hb s (List.mem_cons_self s t)) (hr1 n) (hr2 n)))

theorem edgeSamplesSq_brightness (pts : List (ℤ × ℤ)) :
    ∀ s ∈ edgeSamplesSq pts, 0 ≤ s.2.2 ∧ s.2.2 ≤ 1 := by
  intro s hs
  rw [edgeSamplesSq, List.mem_append] at hs
  rcases hs with hs | hs
  · rw [List.mem_flatMap] at hs
    obtain ⟨i, -, hi⟩ := hs
    exact (drawLine_sample _ _ _ _ s hi).1
  · rw [List.mem_map] at hs
    obtain ⟨p, -, rfl⟩ := hs
    norm_num

theorem clipSamples_brightness (samples : List Sample)
    (h : ∀ s ∈ samples, 0 ≤ s.2.2 ∧ s.2.2 ≤ 1) :
    ∀ s ∈ clipSamples samples, 0 ≤ s.2.2 ∧ s.2.2 ≤ 1 := by
  intro s hs
  rw [clipSamples] at hs
  have hmem := List.mem_of_mem_filter hs
  rw [List.mem_map] at hmem
  obtain ⟨p, hp, rfl⟩ := hmem
  exact h p hp

-- C2 amended

theorem calcRotationSq_id : calcRotationSq 1 0 basePointsSq = basePointsSq := by
  simp only [calcRotationSq, basePointsSq, List.map_cons, List.map_nil, jsRound]
  norm_num

theorem chooseASCII_zero_one : chooseASCII 0 1 = 'W' := by
  have hb : bandIdx 1 = 9 := by rw [bandIdx_eq]; norm_num
  simp only [chooseASCII, hb]
  have hlen : ((DENSITY.getD ((9 : ℤ)).toNat "").toList.length) = 7 := by decide
  rw [hlen]
  have hfl0 : ⌊(0 : ℚ) * ((7 : ℕ) : ℚ)⌋ = 0 := by norm_num
  rw [hfl0]
  decide

theorem chooseASCII_r6_one : chooseASCII (13/14) 1 = '$' := by
  have hb : bandIdx 1 = 9 := by rw [bandIdx_eq]; norm_num
  simp only [chooseASCII, hb]
  have hlen : ((DENSITY.getD ((9 : ℤ)).toNat "").toList.length) = 7 := by decide
  rw [hlen]
  have hfl6 : ⌊(13/14 : ℚ) * ((7 : ℕ) : ℚ)⌋ = 6 := by norm_num [Int.floor_eq_iff]
  rw [hfl6]
  decide

theorem clipSamples_append (A B : List Sample) :
    clipSamples (A ++ B) = clipSamples A ++ clipSamples B := by
  simp [clipSamples, List.filter_append]

theorem cellAt_setCell_self (g : Grid) (y x : ℕ) (ch : Char) (hg : GridOK g)
    (hy : y < 41) (hx : x < 41) : cellAt (setCell g y x ch) y x = ch := by
  obtain ⟨hlen, hrow⟩ := hg
  have hylen : y < g.length := by omega
  have hrl : (g.getD y []).length = 41 := by
    rw [List.getD_eq_getElem _ _ hylen]
    exact hrow _ (List.getElem_mem hylen)
  rw [cellAt, setCell, getD_set_general, if_pos ⟨rfl, hylen⟩, getD_set_general,
    if_pos ⟨rfl, by omega⟩]

theorem writeSamples_append_last (r : ℕ → ℚ) (L : List Sample) (x y : ℤ) (b : ℚ) (g : Grid)
    (hg : GridOK g) (hy : y.toNat < 41) (hx : x.toNat < 41) :
    cellAt (writeSamples r (L ++ [(x, y, b)]) g) y.toNat x.toNat =
      chooseASCII (r L.length) b := by
  rw [writeSamples, List.enum_eq_enumFrom, List.enumFrom_append, List.foldl_append]
  have hG : GridOK ((List.enumFrom 0 L).foldl
      (fun g ks => setCell g ks.2.2.1.toNat ks.2.1.toNat (chooseASCII (r ks.1) ks.2.2.2)) g) :=
    gridOK_foldl _ (fun g a hg => gridOK_setCell _ _ _ _ hg) _ _ hg
  rw [List.enumFrom_cons]
  simp only [List.foldl_cons, List.foldl_nil, Nat.zero_add]
  exact cellAt_setCell_self _ _ _ _ hG hy hx

theorem vertexClip :
    clipSamples (basePointsSq.map fun p => (p.1, p.2, (1 : ℚ))) =
      [((10 : ℤ), (10 : ℤ), (1 : ℚ)), ((30 : ℤ), (10 : ℤ), (1 : ℚ)),
       ((30 : ℤ), (30 : ℤ), (1 : ℚ)), ((10 : ℤ), (30 : ℤ), (1 : ℚ))] := by
  norm_num [clipSamples, basePointsSq, shiftSample, inBounds]

theorem edgeSamplesSq_decomp :
    clipSamples (edgeSamplesSq basePointsSq) =
      (clipSamples ((List.range basePointsSq.length).flatMap fun i =>
        let p := basePointsSq.getD i (0, 0)
        let q := basePointsSq.getD ((i + 1) % basePointsSq.length) (0, 0)
        drawLine p.1 p.2 q.1 q.2) ++
       [((10 : ℤ), (10 : ℤ), (1 : ℚ)), ((30 : ℤ), (10 : ℤ), (1 : ℚ)),
        ((30 : ℤ), (30 : ℤ), (1 : ℚ))]) ++ [((10 : ℤ), (30 : ℤ), (1 : ℚ))] := by
  rw [edgeSamplesSq, clipSamples_append, vertexClip, List.append_assoc]
  rfl

-- C2 counterexample

theorem cube_edges_good :
    EDGES_C.length = 12 ∧
    (EDGES_C.all fun e =>
      diffCoordCount3 (BASE_POINTS_C.getD e.1 (0, 0, 0)) (BASE_POINTS_C.getD e.2 (0, 0, 0)) = 1)
      = true := by
  decide

-- C6 counterexample


/-! ## The claims -/

/-- C1: evaluation of the tessarect generator.  `BASE_POINTS` has the
claimed 16 bit-indexed vertices and `EDGES` the claimed 32 entries, but
the bit/coordinate property fails: edge `EDGES[1] = (1, 2)` joins
vertices that differ in two coordinate signs (indices differing in two
bits), and only 24 of the 32 edges join vertices differing in exactly
one coordinate.  The hard-coded edge table assumes cyclically ordered
vertices (as in `AsciiCube`) while the vertices are bit-ordered. -/
theorem c1_tessarect_generator_eval :
    BASE_POINTS_T.length = 16 ∧ EDGES_T.length = 32 ∧
    ((List.range 16).all fun i =>
      BASE_POINTS_T.getD i (0, 0, 0, 0) =
        ((if i.testBit 0 then 5 else -5), (if i.testBit 1 then 5 else -5),
         (if i.testBit 2 then 5 else -5), (if i.testBit 3 then 5 else -5))) = true ∧
    EDGES_T.getD 1 (0, 0) = (1, 2) ∧
    diffCoordCount (BASE_POINTS_T.getD 1 (0, 0, 0, 0)) (BASE_POINTS_T.getD 2 (0, 0, 0, 0)) = 2 ∧
    diffBitCount 1 2 = 2 ∧
    ¬ (EDGES_T.all fun e =>
        diffCoordCount (BASE_POINTS_T.getD e.1 (0, 0, 0, 0)) (BASE_POINTS_T.getD e.2 (0, 0, 0, 0)) = 1) = true ∧
    (EDGES_T.filter fun e =>
        diffCoordCount (BASE_POINTS_T.getD e.1 (0, 0, 0, 0)) (BASE_POINTS_T.getD e.2 (0, 0, 0, 0)) = 1).length = 24 := by
  decide

-- C3 amended

/-- C2, counterexample: two renders with identical shape and angles but
different `Math.random` values differ bit-for-bit — the cell written
last (the final full-brightness vertex sample at screen cell
`(row 30, column 10)`) is `'W'` under one random stream and `'$'` under
another, so the output grid is not independent of the hidden
randomness. -/
theorem c2_render_not_bitwise_deterministic :
    drawFrameSq 1 0 (fun _ => 0) basePointsSq ≠
      drawFrameSq 1 0 (fun _ => 13/14) basePointsSq := by
  intro heq
  have h1 : cellAt (drawFrameSq 1 0 (fun _ => 0) basePointsSq)
      ((30 : ℤ)).toNat ((10 : ℤ)).toNat = 'W' := by
    rw [drawFrameSq, calcRotationSq_id, edgeSamplesSq_decomp,
      writeSamples_append_last (fun _ => 0) _ 10 30 1 createNewScreen gridOK_createNewScreen
        (by norm_num) (by norm_num)]
    exact chooseASCII_zero_one
  have h2 : cellAt (drawFrameSq 1 0 (fun _ => 13/14) basePointsSq)
      ((30 : ℤ)).toNat ((10 : ℤ)).toNat = '$' := by
    rw [drawFrameSq, calcRotationSq_id, edgeSamplesSq_decomp,
      writeSamples_append_last (fun _ => 13/14) _ 10 30 1 createNewScreen gridOK_createNewScreen
        (by norm_num) (by norm_num)]
    exact chooseASCII_r6_one
  rw [heq, h2] at h1
  exact absurd h1 (by decide)

/-- C2, amended: rendering is deterministic up to the density band.
For a fixed shape and fixed rotation values, grids produced with any
two `Math.random` streams taking values in `[0,1)` have identical
dimensions, blanks in exactly the same cells, and characters drawn from
the same `DENSITY` band in every written cell; only the choice within
the band depends on the random values. -/
theorem c2_render_deterministic_up_to_band (cosA sinA : ℚ) (base : List (ℤ × ℤ)) (r1 r2 : ℕ → ℚ)
    (hr1 : ∀ n, 0 ≤ r1 n ∧ r1 n < 1) (hr2 : ∀ n, 0 ≤ r2 n ∧ r2 n < 1) :
    GridR (drawFrameSq cosA sinA r1 base) (drawFrameSq cosA sinA r2 base) := by
  rw [drawFrameSq, drawFrameSq, writeSamples, writeSamples, List.enum_eq_enumFrom]
  exact gridR_writes r1 r2 hr1 hr2 _
    (clipSamples_brightness _ (edgeSamplesSq_brightness _)) 0 _ _ gridR_blank

/-- Witness for C2 at the zero rotation with two concrete streams. -/
theorem c2_render_deterministic_up_to_band_witness :
    GridR (drawFrameSq 1 0 (fun _ => 0) basePointsSq)
      (drawFrameSq 1 0 (fun _ => 1/2) basePointsSq) :=
  c2_render_deterministic_up_to_band 1 0 basePointsSq _ _ (fun n => by norm_num) (fun n => by norm_num)

/-- C3, counterexample: the horizontal line from `(0,0)` to `(10,0)`
does emit a sample off the row `y = 0` — the ceil-band sample
`(0, 1, 0)` is in its output — refuting "no samples in any other
row". -/
theorem c3_horizontal_line_extra_row : ((0 : ℤ), (1 : ℤ), (0 : ℚ)) ∈ drawLine 0 0 10 0 ∧ (1 : ℤ) ≠ 0 := by
  norm_num [drawLine, lineGo, lineSamples]

-- C5 amended

/-- C3, amended: the horizontal line from `(0,0)` to `(10,0)`
rasterizes to exactly 22 samples — for each of the 11 integer positions
`x = 0..10`, the cell `(x, 0)` with brightness `1` and the ceil-band
cell `(x, 1)` with brightness `0`; the samples with nonzero brightness
are exactly the 11 full-brightness ones on the row `y = 0`. -/
theorem c3_horizontal_line_samples :
    drawLine 0 0 10 0 =
      [(0, 0, 1), (0, 1, 0), (1, 0, 1), (1, 1, 0), (2, 0, 1), (2, 1, 0),
       (3, 0, 1), (3, 1, 0), (4, 0, 1), (4, 1, 0), (5, 0, 1), (5, 1, 0),
       (6, 0, 1), (6, 1, 0), (7, 0, 1), (7, 1, 0), (8, 0, 1), (8, 1, 0),
       (9, 0, 1), (9, 1, 0), (10, 0, 1), (10, 1, 0)] := by
  norm_num [drawLine, lineGo, lineSamples]

-- C3 counterexample

/-- C4: for all integer endpoints, `drawLine` equals the claimed
contract — transpose when steep, swap so iteration ascends, and for
every integer step along the dominant axis emit the floor cell with
brightness `1 - frac` and the cell one further along the secondary axis
with brightness `frac`, where `frac` is the fractional part of the
exact secondary position, un-transposing before emission — and returns
exactly `2·(max(|x1-x0|, |y1-y0|) + 1)` samples. -/
theorem c4_drawLine_contract (x0 y0 x1 y1 : ℤ) :
    drawLine x0 y0 x1 y1 = drawLineClaim x0 y0 x1 y1 ∧
    (drawLine x0 y0 x1 y1).length = 2 * (max (x1 - x0).natAbs (y1 - y0).natAbs + 1) := by
  have habs : ∀ a b : ℤ, |a - b| = ((a - b).natAbs : ℤ) := fun a b => Int.abs_eq_natAbs _
  unfold drawLine drawLineClaim dominantLen
  split_ifs with h1 h2 h3
  · rw [habs, habs] at h1
    have hn : (y0 - y1 + 1).toNat = max (x1 - x0).natAbs (y1 - y0).natAbs + 1 := by omega
    refine ⟨?_, ?_⟩
    · rw [lineGo_eq, hn]
    · rw [lineGo_eq, claimSteps_length, hn]
  · rw [habs, habs] at h1
    have hn : (y1 - y0 + 1).toNat = max (x1 - x0).natAbs (y1 - y0).natAbs + 1 := by omega
    refine ⟨?_, ?_⟩
    · rw [lineGo_eq, hn]
    · rw [lineGo_eq, claimSteps_length, hn]
  · rw [habs, habs] at h1
    have hn : (x0 - x1 + 1).toNat = max (x1 - x0).natAbs (y1 - y0).natAbs + 1 := by omega
    refine ⟨?_, ?_⟩
    · rw [lineGo_eq, hn]
    · rw [lineGo_eq, claimSteps_length, hn]
  · rw [habs, habs] at h1
    have hn : (x1 - x0 + 1).toNat = max (x1 - x0).natAbs (y1 - y0).natAbs + 1 := by omega
    refine ⟨?_, ?_⟩
    · rw [lineGo_eq, hn]
    · rw [lineGo_eq, claimSteps_length, hn]

/-- C5, counterexample: brightness `0.99` ("just under 1.0") falls in
band 8, not the top band `N - 1 = 9`; the chosen character is not a
member of band 9. -/
theorem c5_band_just_under_one : bandIdx (99/100) = 8 ∧ chooseASCII 0 (99/100) ∉ (DENSITY.getD 9 "").toList := by
  have h8 : bandIdx (99/100) = 8 := by
    rw [bandIdx]
    norm_num [DENSITY, Int.floor_eq_iff]
  refine ⟨h8, ?_⟩
  have hc : chooseASCII 0 (99/100) = 'k' := by
    simp only [chooseASCII, h8]
    have hz : (⌊(0 : ℚ) * (((DENSITY.getD ((8 : ℤ)).toNat "").toList.length : ℕ) : ℚ)⌋).toNat = 0 := by
      norm_num
    rw [hz]
    decide
  rw [hc]
  decide

-- C10

/-- C5, amended: for brightness in `[0,1]` the band index
`⌊brightness · (N-1)⌋` lies in `[0, N-1]` without any clamping being
needed, brightness `0` maps to band `0`, brightness exactly `1` maps to
band `N-1`, brightness just under `1` (in `[8/9, 1)`) maps to band
`N-2 = 8`, and the selected character is always a defined member of the
selected band (never out of range). -/
theorem c5_glyph_band_mapping (brightness r : ℚ) (hb0 : 0 ≤ brightness) (hb1 : brightness ≤ 1)
    (hr0 : 0 ≤ r) (hr1 : r < 1) :
    0 ≤ bandIdx brightness ∧ bandIdx brightness ≤ 9 ∧
    (brightness = 0 → bandIdx brightness = 0) ∧
    (brightness = 1 → bandIdx brightness = 9) ∧
    (8/9 ≤ brightness → brightness < 1 → bandIdx brightness = 8) ∧
    chooseASCII r brightness ∈ (DENSITY.getD (bandIdx brightness).toNat "").toList := by
  have hlen : ((DENSITY.length : ℚ) - 1) = 9 := by norm_num [DENSITY]
  have h9 : bandIdx brightness = ⌊brightness * 9⌋ := by rw [bandIdx, hlen]
  have h0 : 0 ≤ bandIdx brightness := by
    rw [h9]; exact Int.floor_nonneg.mpr (by positivity)
  have h9le : bandIdx brightness ≤ 9 := by
    rw [h9]
    calc ⌊brightness * 9⌋ ≤ ⌊(9 : ℚ)⌋ := Int.floor_le_floor (by nlinarith)
    _ = 9 := by norm_num
  refine ⟨h0, h9le, ?_, ?_, ?_, ?_⟩
  · intro h; rw [h9, h]; norm_num
  · intro h; rw [h9, h]; norm_num
  · intro h8 h1
    rw [h9, Int.floor_eq_iff]
    constructor
    · push_cast; linarith
    · push_cast; linarith
  · have hband : ∀ k ≤ 9, ((DENSITY.getD k "").toList.length) = 7 := by decide
    have hkb : (bandIdx brightness).toNat ≤ 9 := by omega
    have hblen := hband _ hkb
    simp only [chooseASCII]
    have hfl : ⌊r * (((DENSITY.getD (bandIdx brightness).toNat "").toList.length : ℕ) : ℚ)⌋ < 7 := by
      rw [hblen]
      exact Int.floor_lt.mpr (by push_cast; nlinarith)
    have hlt : (⌊r * (((DENSITY.getD (bandIdx brightness).toNat "").toList.length : ℕ) : ℚ)⌋).toNat <
        (DENSITY.getD (bandIdx brightness).toNat "").toList.length := by omega
    rw [List.getD_eq_getElem _ _ hlt]
    exact List.getElem_mem _

-- C5 witness

/-- Witness for C5 at brightness `1`, random value `1/2`. -/
theorem c5_glyph_band_mapping_witness : chooseASCII (1/2) 1 ∈ (DENSITY.getD (bandIdx 1).toNat "").toList :=
  (c5_glyph_band_mapping 1 (1/2) (by norm_num) (by norm_num) (by norm_num) (by norm_num)).2.2.2.2.2

-- C5 counterexample

/-- C6, counterexample: the edge from `(-20,-21)` to `(-10,-21)` has
both endpoints outside the 41×41 canvas and its segment lies wholly on
the row `y = -21`, one unit outside the canvas (shifted row `-1`), yet
its rasterization retains samples — the ceil-band cells land on row
`0` — refuting "zero retained samples" for non-crossing outside
edges. -/
theorem c6_near_canvas_outside_edge :
    inBounds (shiftSample (-20, -21, 1)) = false ∧
    inBounds (shiftSample (-10, -21, 1)) = false ∧
    (-21 + 20 : ℤ) < 0 ∧
    ((0 : ℤ), (0 : ℤ), (0 : ℚ)) ∈ clipSamples (drawLine (-20) (-21) (-10) (-21)) ∧
    clipSamples (drawLine (-20) (-21) (-10) (-21)) ≠ [] := by
  have hmem : ((0 : ℤ), (0 : ℤ), (0 : ℚ)) ∈ clipSamples (drawLine (-20) (-21) (-10) (-21)) := by
    norm_num [drawLine, lineGo, lineSamples, clipSamples, shiftSample, inBounds]
  exact ⟨by decide, by decide, by decide, hmem, List.ne_nil_of_mem hmem⟩

/-- C6, amended: out-of-bounds samples are silently discarded and a
render call always returns a fully-formed 41×41 grid, for every angle,
random stream and base-point list; and any edge whose bounding box,
expanded by the one-unit antialiasing margin, misses the canvas
entirely contributes zero retained samples. -/
theorem c6_out_of_bounds_discard :
    (∀ (cosA sinA : ℚ) (r : ℕ → ℚ) (base : List (ℤ × ℤ)),
      (drawFrameSq cosA sinA r base).length = 41 ∧
      ∀ row ∈ drawFrameSq cosA sinA r base, row.length = 41) ∧
    (∀ x0 y0 x1 y1 : ℤ,
      (max x0 x1 + 1 < -20 ∨ 20 < min x0 x1 ∨ max y0 y1 + 1 < -20 ∨ 20 < min y0 y1) →
      clipSamples (drawLine x0 y0 x1 y1) = []) :=
  ⟨fun cosA sinA r base => drawFrameSq_gridOK cosA sinA r base,
   fun x0 y0 x1 y1 hfar => clip_far_edge x0 y0 x1 y1 hfar⟩

/-- Witness for C6 at the spec's own example, `p0 = (1000, 1000)`,
`p1 = (2000, 2000)`. -/
theorem c6_out_of_bounds_discard_witness : clipSamples (drawLine 1000 1000 2000 2000) = [] :=
  c6_out_of_bounds_discard.2 1000 1000 2000 2000 (by right; left; decide)

/-- C7, counterexample: the point-cloud variant's `calculateRotation`
replaces its stored vertices — after one update with a 90° angle the
stored points differ from the defined ones, and a second update with
the same angle produces yet other positions — so that variant violates
"rotation never mutates the stored vertices" and "same angle twice
gives the same rotated positions". -/
theorem c7_points001_mutates :
    (step001 0 1 init001).points ≠ init001.points ∧
    (step001 0 1 (step001 0 1 init001)).points ≠ (step001 0 1 init001).points := by
  have hhead : points001Init.head? = some (-10, -10) := by decide
  have hstep : ∀ st : Points001State, (step001 0 1 st).points = st.points.map (fun p =>
      (jsRound ((p.1 : ℚ) * 0 - (p.2 : ℚ) * 1), jsRound ((p.1 : ℚ) * 1 + (p.2 : ℚ) * 0))) :=
    fun st => rfl
  constructor
  · intro heq
    have h := congrArg List.head? heq
    rw [hstep init001, List.head?_map] at h
    rw [show init001.points = points001Init from rfl, hhead] at h
    norm_num [jsRound] at h
  · intro heq
    have h := congrArg List.head? heq
    rw [hstep (step001 0 1 init001), List.head?_map, hstep init001, List.head?_map] at h
    rw [show init001.points = points001Init from rfl, hhead] at h
    norm_num [jsRound] at h

/-- C7, amended: in the `AsciiSquare` renderer the base vertex
definition survives any sequence of render calls unchanged — `drawFrame`
writes only the per-frame screen — so rotating by the same angle before
and after any number of renders yields identical rotated positions.
(The early point-cloud variant is the exception, see the
counterexample.) -/
theorem c7_base_vertices_immutable : ∀ (calls : List ((ℚ × ℚ) × (ℕ → ℚ))) (st : SquareState),
    (calls.foldl (fun s c => squareStep c.1.1 c.1.2 c.2 s) st).basePoints = st.basePoints ∧
    ∀ cosA sinA : ℚ,
      calcRotationSq cosA sinA
          ((calls.foldl (fun s c => squareStep c.1.1 c.1.2 c.2 s) st).basePoints) =
        calcRotationSq cosA sinA st.basePoints := by
  intro calls
  induction calls with
  | nil => intro st; exact ⟨rfl, fun _ _ => rfl⟩
  | cons c t ih =>
    intro st
    have h := ih (squareStep c.1.1 c.1.2 c.2 st)
    simp only [List.foldl_cons]
    exact ⟨h.1, fun cosA sinA => by rw [h.1]; rfl⟩

-- C7 counterexample

/-- C8: `AsciiTessarect.calculateRotation` is exactly the sequential
composition of one Givens rotation per axis pair in the order XY, YZ,
ZW, WX: each stage replaces `(v a, v b)` by
`(v a·cos - v b·sin, v a·sin + v b·cos)` leaving the other coordinates
untouched, and each stage consumes the already-rotated output of the
previous stages. -/
theorem c8_rotation_sequential_givens (cXY sXY cYZ sYZ cZW sZW cWX sWX : ℚ) :
    calcRotationT cXY sXY cYZ sYZ cZW sZW cWX sWX =
      BASE_POINTS_T.map fun p =>
        funToTuple (givens 3 0 cWX sWX (givens 2 3 cZW sZW (givens 1 2 cYZ sYZ
          (givens 0 1 cXY sXY (tupleToFun
            ((p.1 : ℚ), (p.2.1 : ℚ), (p.2.2.1 : ℚ), (p.2.2.2 : ℚ))))))) := by
  unfold calcRotationT
  simp only [List.map_map]
  refine List.map_congr_left fun p _ => ?_
  rw [givensChain_eval]
  rfl

-- C9

/-- C9: projection applies the perspective folds innermost-first.  For
the tessarect, `projectTo2D` equals the claimed per-point chain — the
`W_OFFSET` fold, then the `Z_OFFSET` fold, then one uniform
field-of-view scale and rounding; for the cube, `projectTo2D` equals
the claimed single `Z_OFFSET` fold followed by the uniform scale factor
`FOV / Z_OFFSET` and rounding. -/
theorem c9_projection_folds :
    (∀ pts : List Point4, projectTo2DT pts = pts.map projPointClaim4) ∧
    (∀ pts : List (ℚ × ℚ × ℚ), projectTo2DC pts = pts.map projPointClaim3) := by
  constructor
  · intro pts
    unfold projectTo2DT
    simp only [List.map_map]
    refine List.map_congr_left fun p _ => ?_
    simp only [Function.comp, projPointClaim4, Prod.mk.injEq]
    constructor
    · congr 1
      ring
    · congr 1
      ring
  · intro pts
    unfold projectTo2DC
    refine List.map_congr_left fun p _ => ?_
    simp only [projPointClaim3, Prod.mk.injEq]
    constructor
    · congr 1
      rw [FOV_C, Z_OFFSET_C]
      ring
    · congr 1
      rw [FOV_C, Z_OFFSET_C]
      ring

-- rounding lemmas for the two irrational constants

/-- C10: in the Bresenham variant's direction classifier, at most one
of the four indicator conditions holds for any pair of integer
endpoints, the computed index is always at most 3, the returned glyph
is always one of the four line characters, and ties `|Δx| = |Δy|` fall
through to index 0, the `'-'` glyph. -/
theorem c10_direction_classifier_safe (x0 y0 x1 y1 : ℤ) :
    ((if |x1 - x0| > 2 * |y1 - y0| then 1 else 0) +
     (if 2 * |x1 - x0| ≥ |y1 - y0| ∧ |y1 - y0| > |x1 - x0| then 1 else 0) +
     (if |y1 - y0| > 2 * |x1 - x0| then 1 else 0) +
     (if 2 * |y1 - y0| ≥ |x1 - x0| ∧ |x1 - x0| > |y1 - y0| then 1 else 0) : ℕ) ≤ 1 ∧
    dirIndex x0 y0 x1 y1 ≤ 3 ∧
    chooseASCIIDir x0 y0 x1 y1 ∈ lineASCII ∧
    (|x1 - x0| = |y1 - y0| → chooseASCIIDir x0 y0 x1 y1 = '-') := by
  have ha : (0 : ℤ) ≤ |x1 - x0| := abs_nonneg _
  have hb : (0 : ℤ) ≤ |y1 - y0| := abs_nonneg _
  have hsum : ((if |x1 - x0| > 2 * |y1 - y0| then 1 else 0) +
      (if 2 * |x1 - x0| ≥ |y1 - y0| ∧ |y1 - y0| > |x1 - x0| then 1 else 0) +
      (if |y1 - y0| > 2 * |x1 - x0| then 1 else 0) +
      (if 2 * |y1 - y0| ≥ |x1 - x0| ∧ |x1 - x0| > |y1 - y0| then 1 else 0) : ℕ) ≤ 1 := by
    split_ifs <;> omega
  have hidx : dirIndex x0 y0 x1 y1 ≤ 3 := by
    simp only [dirIndex]
    split_ifs <;> omega
  refine ⟨hsum, hidx, ?_, ?_⟩
  · simp only [chooseASCIIDir]
    generalize dirIndex x0 y0 x1 y1 = n at hidx
    interval_cases n <;> decide
  · intro h
    have hz : dirIndex x0 y0 x1 y1 = 0 := by
      simp only [dirIndex]
      split_ifs <;> omega
    simp only [chooseASCIIDir, hz]
    decide

/-- Witness for C10 at the tie `(0,0) → (3,3)`. -/
theorem c10_direction_classifier_safe_witness : chooseASCIIDir 0 0 3 3 = '-' :=
  (c10_direction_classifier_safe 0 0 3 3).2.2.2 (by norm_num)


end AsciiRender
